import Mathlib

/-
Shallow embedding of the goSafeCircuit circuit breaker
(src/gosafecircuit.go, package gosafecircuit).

Modelling conventions:
* Go `int` fields (counters, thresholds) are modelled as unbounded `Int`.
* `time.Time` and `time.Duration` are modelled as `Int` timestamps and
  durations; the zero value `time.Time{}` is `0`; `t.After(u)` is `t > u`;
  `t.Add(d)` is `t + d`.
* Each `Execute` call receives the current wall-clock time `now : Int` as a
  parameter; every `time.Now()` inside that call returns `now`.
* The wrapped operation `fn : func() error` is modelled by its outcome for
  this call, a `Bool` (`true` = returned `nil`, `false` = returned a non-nil
  error).  The breaker only ever inspects `err == nil`.
* The hook fields `onOpen`, `onClose`, `onHalfOpen` are function pointers
  whose only observable property inside the breaker is whether they are
  non-nil and when they get invoked; they are modelled by the Booleans
  `onOpenSet`, `onCloseSet`, `onHalfOpenSet`, and each invocation is
  recorded as an `Event` in the call's event list, in invocation order.
* `time.Sleep(cb.pauseTime)` is recorded in the `slept` field of the call's
  output (the duration slept; `0` on paths that do not sleep).
* The mutex serialises calls; a sequence of `Execute` calls is modelled by
  folding over a list of `(now, fnOutcome)` pairs.
-/

namespace GoSafeCircuit

/-- Embeds Go `type State int` with its three constants `StateClosed`,
`StateOpen`, `StateHalfOpen`. -/
inductive State where
  | StateClosed : State
  | StateOpen : State
  | StateHalfOpen : State
deriving DecidableEq, Repr

/-- Records one invocation of a transition hook (`cb.onOpen()`,
`cb.onClose()`, `cb.onHalfOpen()`). -/
inductive Event where
  | evOpen : Event
  | evClose : Event
  | evHalfOpen : Event
deriving DecidableEq, Repr

/-- Embeds the `CircuitBreaker` struct.  The `mutex` field has no
sequential content and is omitted; the three hook function pointers are
represented by whether they are non-nil. -/
structure CircuitBreaker where
  state : State
  consecutiveFailures : Int
  totalFailures : Int
  totalSuccesses : Int
  maxFailures : Int
  timeout : Int
  openTimeout : Int
  pauseTime : Int
  consecutiveSuccesses : Int
  maxConsecutiveSuccesses : Int
  onOpenSet : Bool
  onCloseSet : Bool
  onHalfOpenSet : Bool
deriving DecidableEq, Repr

/-- Result of one `Execute` call: the operation's `nil`, the operation's
non-nil error (passed through unchanged), or the breaker's own
`errors.New("circuit breaker is open")` sentinel. -/
inductive ExecResult where
  | ok : ExecResult
  | opError : ExecResult
  | circuitOpenError : ExecResult
deriving DecidableEq, Repr

/-- Observable outcome of one `Execute` call: the updated breaker, the
returned error value, the hook invocations in order, how many times the
wrapped operation was invoked, and how long the call slept. -/
structure ExecOut where
  cb : CircuitBreaker
  result : ExecResult
  events : List Event
  fnCalls : Nat
  slept : Int
deriving DecidableEq, Repr

/-- Embeds `NewCircuitBreaker`: state Closed, all counters zero (Go zero
values), `openTimeout = time.Time{}`, no hooks installed. -/
def NewCircuitBreaker (maxFailures timeout pauseTime maxConsecutiveSuccesses : Int) :
    CircuitBreaker where
  state := State.StateClosed
  consecutiveFailures := 0
  totalFailures := 0
  totalSuccesses := 0
  maxFailures := maxFailures
  timeout := timeout
  openTimeout := 0
  pauseTime := pauseTime
  consecutiveSuccesses := 0
  maxConsecutiveSuccesses := maxConsecutiveSuccesses
  onOpenSet := false
  onCloseSet := false
  onHalfOpenSet := false

/-- Embeds `SetOnOpen` (installs a non-nil `onOpen` callback). -/
def SetOnOpen (cb : CircuitBreaker) : CircuitBreaker :=
  { cb with onOpenSet := true }

/-- Embeds `SetOnClose` (installs a non-nil `onClose` callback). -/
def SetOnClose (cb : CircuitBreaker) : CircuitBreaker :=
  { cb with onCloseSet := true }

/-- Embeds `SetOnHalfOpen` (installs a non-nil `onHalfOpen` callback). -/
def SetOnHalfOpen (cb : CircuitBreaker) : CircuitBreaker :=
  { cb with onHalfOpenSet := true }

/-- Embeds `trip()`: state := Open, both consecutive counters := 0,
`openTimeout := time.Now().Add(cb.timeout)`, invoke `onOpen` if non-nil.
Returns the updated breaker and the hook invocations. -/
def trip (now : Int) (cb : CircuitBreaker) : CircuitBreaker × List Event :=
  ({ cb with
      state := State.StateOpen
      consecutiveFailures := 0
      consecutiveSuccesses := 0
      openTimeout := now + cb.timeout },
   if cb.onOpenSet then [Event.evOpen] else [])

/-- Embeds `reset()`: state := Closed, both consecutive counters := 0,
invoke `onClose` if non-nil.  `openTimeout` is not touched. -/
def reset (cb : CircuitBreaker) : CircuitBreaker × List Event :=
  ({ cb with
      state := State.StateClosed
      consecutiveFailures := 0
      consecutiveSuccesses := 0 },
   if cb.onCloseSet then [Event.evClose] else [])

/-- Embeds the code after the `switch` statement in `Execute`
(lines 79-91): run the operation; on success `reset()` then
`totalSuccesses++`; on failure `consecutiveFailures++`, `totalFailures++`,
and `trip()` when `consecutiveFailures >= maxFailures`.  `ev0` carries hook
invocations already made earlier in the same call (the Open-to-HalfOpen
transition reaches this code with `ev0 = [evHalfOpen]` when the hook is
set, because a Go `switch` case does not fall through to the next case). -/
def afterSwitch (cb : CircuitBreaker) (now : Int) (fnOk : Bool) (ev0 : List Event) :
    ExecOut :=
  if fnOk then
    let r := reset cb
    { cb := { r.1 with totalSuccesses := r.1.totalSuccesses + 1 }
      result := ExecResult.ok
      events := ev0 ++ r.2
      fnCalls := 1
      slept := 0 }
  else
    let cb1 := { cb with
        consecutiveFailures := cb.consecutiveFailures + 1
        totalFailures := cb.totalFailures + 1 }
    if cb1.consecutiveFailures ≥ cb1.maxFailures then
      let r := trip now cb1
      { cb := r.1
        result := ExecResult.opError
        events := ev0 ++ r.2
        fnCalls := 1
        slept := 0 }
    else
      { cb := cb1
        result := ExecResult.opError
        events := ev0
        fnCalls := 1
        slept := 0 }

/-- Embeds `Execute` (lines 49-92).  `now` is this call's wall-clock time,
`fnOk` the outcome the wrapped operation would produce if invoked. -/
def Execute (cb : CircuitBreaker) (now : Int) (fnOk : Bool) : ExecOut :=
  match cb.state with
  | State.StateOpen =>
      if now > cb.openTimeout then
        afterSwitch { cb with state := State.StateHalfOpen } now fnOk
          (if cb.onHalfOpenSet then [Event.evHalfOpen] else [])
      else
        { cb := cb
          result := ExecResult.circuitOpenError
          events := []
          fnCalls := 0
          slept := 0 }
  | State.StateHalfOpen =>
      if fnOk then
        let cb1 := { cb with
            consecutiveSuccesses := cb.consecutiveSuccesses + 1
            totalSuccesses := cb.totalSuccesses + 1 }
        if cb1.consecutiveSuccesses ≥ cb1.maxConsecutiveSuccesses then
          let r := reset cb1
          { cb := r.1
            result := ExecResult.ok
            events := r.2
            fnCalls := 1
            slept := cb.pauseTime }
        else
          { cb := cb1
            result := ExecResult.ok
            events := []
            fnCalls := 1
            slept := cb.pauseTime }
      else
        let r := trip now cb
        { cb := r.1
          result := ExecResult.opError
          events := r.2
          fnCalls := 1
          slept := cb.pauseTime }
  | State.StateClosed => afterSwitch cb now fnOk []

/-- Runs a sequence of `Execute` calls (the mutex serialises them); each
list element is `(now, fnOutcome)` for one call. -/
def runExec (cb : CircuitBreaker) : List (Int × Bool) → CircuitBreaker
  | [] => cb
  | p :: rest => runExec (Execute cb p.1 p.2).cb rest

/-- All hook invocations made during a sequence of `Execute` calls, in
order. -/
def runEvents (cb : CircuitBreaker) : List (Int × Bool) → List Event
  | [] => []
  | p :: rest => (Execute cb p.1 p.2).events ++ runEvents (Execute cb p.1 p.2).cb rest

/-- Per-call outcomes of a sequence of `Execute` calls, in order. -/
def runTrace (cb : CircuitBreaker) : List (Int × Bool) → List ExecOut
  | [] => []
  | p :: rest => Execute cb p.1 p.2 :: runTrace (Execute cb p.1 p.2).cb rest

/-- Call inputs for a run in which the wrapped operation fails at every
invocation, at the given timestamps. -/
def failCalls (ts : List Int) : List (Int × Bool) :=
  ts.map (fun t => (t, false))

/-- State of the breaker after each call of a run, in order (the state
observable once the corresponding `Execute` call has returned). -/
def traceStates (cb : CircuitBreaker) (l : List (Int × Bool)) : List State :=
  (runTrace cb l).map (fun o => o.cb.state)

/-- Number of calls in a run in which the wrapped operation was invoked
and returned `nil`. -/
def countSuccessCalls (cb : CircuitBreaker) : List (Int × Bool) → Int
  | [] => 0
  | p :: rest =>
      (if (Execute cb p.1 p.2).fnCalls = 1 ∧ p.2 = true then 1 else 0) +
      countSuccessCalls (Execute cb p.1 p.2).cb rest

/-- Number of calls in a run in which the wrapped operation was invoked
and returned a non-nil error, excluding calls entered in the HalfOpen
state (the HalfOpen probe arm of the `switch` does not touch
`totalFailures`). -/
def countNonProbeFailureCalls (cb : CircuitBreaker) : List (Int × Bool) → Int
  | [] => 0
  | p :: rest =>
      (if (Execute cb p.1 p.2).fnCalls = 1 ∧ p.2 = false ∧
          cb.state ≠ State.StateHalfOpen then 1 else 0) +
      countNonProbeFailureCalls (Execute cb p.1 p.2).cb rest

/-- Inductive invariant on breaker states: both consecutive counters are
non-negative, and a positive `consecutiveSuccesses` can only be observed
while the breaker is HalfOpen. -/
def CounterInv (cb : CircuitBreaker) : Prop :=
  0 ≤ cb.consecutiveFailures ∧ 0 ≤ cb.consecutiveSuccesses ∧
  (0 < cb.consecutiveSuccesses → cb.state = State.StateHalfOpen)

/-- Sample breaker: Open with `openTimeout = 9` (cooldown not elapsed at
time 7). -/
def cbOpen9 : CircuitBreaker :=
  { NewCircuitBreaker 2 5 1 1 with
      state := State.StateOpen, openTimeout := 9 }

/-- Sample breaker: Open with `openTimeout = 3` (cooldown elapsed at
time 9). -/
def cbOpen3 : CircuitBreaker :=
  { SetOnHalfOpen (NewCircuitBreaker 2 5 1 1) with
      state := State.StateOpen, openTimeout := 3 }

/-- Sample breaker: HalfOpen with five prior consecutive successes and the
`onOpen` hook installed. -/
def cbHalf5 : CircuitBreaker :=
  { SetOnOpen (NewCircuitBreaker 3 10 1 7) with
      state := State.StateHalfOpen, consecutiveSuccesses := 5 }

/-- Sample breaker: Closed with two consecutive failures and the `onClose`
hook installed. -/
def cbClosed2 : CircuitBreaker :=
  { SetOnClose (NewCircuitBreaker 3 5 1 2) with
      consecutiveFailures := 2 }

/-- Sample breaker: HalfOpen with one consecutive success against a
threshold of three, and a stale `openTimeout`. -/
def cbHalf1 : CircuitBreaker :=
  { NewCircuitBreaker 2 5 1 3 with
      state := State.StateHalfOpen, consecutiveSuccesses := 1, openTimeout := 17 }

/-- Sample breaker: HalfOpen with a stale `openTimeout = 4`. -/
def cbHalfStale : CircuitBreaker :=
  { NewCircuitBreaker 2 5 1 1 with
      state := State.StateHalfOpen, openTimeout := 4 }

/-- Helper: a failing call entered in the Closed state whose incremented
`consecutiveFailures` is still below `maxFailures` only increments the two
failure counters. -/
theorem execute_closed_failure_below_threshold (cb : CircuitBreaker) (now : Int)
    (hs : cb.state = State.StateClosed)
    (hlt : cb.consecutiveFailures + 1 < cb.maxFailures) :
    Execute cb now false =
      { cb := { cb with consecutiveFailures := cb.consecutiveFailures + 1,
                        totalFailures := cb.totalFailures + 1 },
        result := ExecResult.opError, events := [], fnCalls := 1, slept := 0 } := by
  obtain ⟨st, cf, tf, tsc, mf, tmo, ot, pt, cs, mcs, a, b, c⟩ := cb
  simp only at hs hlt
  subst hs
  simp only [Execute, afterSwitch]
  rw [if_neg (by simp), if_neg (by simp; omega)]

/-- Helper: a failing call entered in the Closed state whose incremented
`consecutiveFailures` reaches `maxFailures` trips the breaker. -/
theorem execute_closed_failure_at_threshold (cb : CircuitBreaker) (now : Int)
    (hs : cb.state = State.StateClosed)
    (hge : cb.maxFailures ≤ cb.consecutiveFailures + 1) :
    Execute cb now false =
      { cb := { cb with state := State.StateOpen, consecutiveFailures := 0,
                        consecutiveSuccesses := 0,
                        totalFailures := cb.totalFailures + 1,
                        openTimeout := now + cb.timeout },
        result := ExecResult.opError,
        events := if cb.onOpenSet then [Event.evOpen] else [],
        fnCalls := 1, slept := 0 } := by
  obtain ⟨st, cf, tf, tsc, mf, tmo, ot, pt, cs, mcs, a, b, c⟩ := cb
  simp only at hs hge
  subst hs
  simp only [Execute, afterSwitch, trip]
  rw [if_neg (by simp), if_pos (by simp; omega)]
  simp

/-- Claim C4: an `Execute` call that arrives while the breaker is Open with
the current time at or before `openTimeout` returns the breaker's own
"circuit breaker is open" sentinel error, never invokes the wrapped
operation, and leaves every breaker field exactly as it was. -/
theorem execute_open_fast_fail (cb : CircuitBreaker) (now : Int) (fnOk : Bool)
    (hs : cb.state = State.StateOpen) (ht : now ≤ cb.openTimeout) :
    Execute cb now fnOk =
      { cb := cb, result := ExecResult.circuitOpenError, events := [],
        fnCalls := 0, slept := 0 } := by
  obtain ⟨st, cf, tf, tsc, mf, tmo, ot, pt, cs, mcs, a, b, c⟩ := cb
  simp only at hs ht
  subst hs
  simp only [Execute]
  rw [if_neg (by omega)]

/-- Witness for `execute_open_fast_fail` at a concrete Open breaker. -/
theorem execute_open_fast_fail_witness :
    Execute cbOpen9 7 false =
      { cb := cbOpen9, result := ExecResult.circuitOpenError, events := [],
        fnCalls := 0, slept := 0 } :=
  execute_open_fast_fail cbOpen9 7 false (by decide) (by decide)

/-- Claim C6: an `Execute` call entered with the breaker already HalfOpen
whose probe fails trips back to Open regardless of prior consecutive
successes: both consecutive counters become 0, `onOpen` is invoked when
installed, `openTimeout` becomes the trip time plus `timeout`, the probe's
error is returned, and the call sleeps for `pauseTime`. -/
theorem execute_halfOpen_probe_failure_retrips (cb : CircuitBreaker) (now : Int)
    (hs : cb.state = State.StateHalfOpen) :
    Execute cb now false =
      { cb := { cb with state := State.StateOpen, consecutiveFailures := 0,
                        consecutiveSuccesses := 0, openTimeout := now + cb.timeout },
        result := ExecResult.opError,
        events := if cb.onOpenSet then [Event.evOpen] else [],
        fnCalls := 1, slept := cb.pauseTime } := by
  obtain ⟨st, cf, tf, tsc, mf, tmo, ot, pt, cs, mcs, a, b, c⟩ := cb
  simp only at hs
  subst hs
  simp [Execute, trip]

/-- Witness for `execute_halfOpen_probe_failure_retrips` at a concrete
HalfOpen breaker with five prior consecutive successes and the `onOpen`
hook installed. -/
theorem execute_halfOpen_probe_failure_retrips_witness :
    Execute cbHalf5 42 false =
      { cb := { cbHalf5 with
            state := State.StateOpen, consecutiveFailures := 0,
            consecutiveSuccesses := 0, openTimeout := 42 + cbHalf5.timeout },
        result := ExecResult.opError,
        events := if cbHalf5.onOpenSet then [Event.evOpen] else [],
        fnCalls := 1, slept := cbHalf5.pauseTime } :=
  execute_halfOpen_probe_failure_retrips cbHalf5 42 (by decide)

/-- Claim C7 counterexample: a successful `Execute` call entered in the
Closed state with the `onClose` hook installed does invoke `onClose`
(the code's `reset()` fires it even though the breaker was already
Closed), contradicting the claim that the hook is not invoked. -/
theorem closed_success_fires_onClose_cex :
    (Execute (SetOnClose (NewCircuitBreaker 3 5 1 2)) 1 true).events = [Event.evClose] ∧
    [Event.evClose] ≠ ([] : List Event) := by decide

/-- Claim C7 (amended): an `Execute` call entered in the Closed state whose
operation succeeds performs a full reset that only zeroes the two
consecutive counters (the state is already Closed), increments
`totalSuccesses`, and invokes the `onClose` hook whenever it is installed
(the reset is level-triggered, not edge-triggered). -/
theorem execute_closed_success_resets_and_fires_onClose (cb : CircuitBreaker) (now : Int)
    (hs : cb.state = State.StateClosed) :
    Execute cb now true =
      { cb := { cb with consecutiveFailures := 0, consecutiveSuccesses := 0,
                        totalSuccesses := cb.totalSuccesses + 1 },
        result := ExecResult.ok,
        events := if cb.onCloseSet then [Event.evClose] else [],
        fnCalls := 1, slept := 0 } := by
  obtain ⟨st, cf, tf, tsc, mf, tmo, ot, pt, cs, mcs, a, b, c⟩ := cb
  simp only at hs
  subst hs
  simp [Execute, afterSwitch, reset]

/-- Witness for `execute_closed_success_resets_and_fires_onClose` at a
concrete Closed breaker with the `onClose` hook installed. -/
theorem execute_closed_success_resets_and_fires_onClose_witness :
    Execute cbClosed2 11 true =
      { cb := { cbClosed2 with
            consecutiveFailures := 0, consecutiveSuccesses := 0,
            totalSuccesses := cbClosed2.totalSuccesses + 1 },
        result := ExecResult.ok,
        events := if cbClosed2.onCloseSet then [Event.evClose] else [],
        fnCalls := 1, slept := 0 } :=
  execute_closed_success_resets_and_fires_onClose cbClosed2 11 (by decide)

/-- Claim C8: within one `Execute` call the wrapped operation is invoked
exactly once, except on the Open-state fast-fail path (Open with the
cooldown not yet elapsed), where it is invoked exactly zero times; in
particular a call that transitions Open to HalfOpen still invokes it only
once. -/
theorem execute_invokes_once_except_fast_fail (cb : CircuitBreaker) (now : Int) (fnOk : Bool) :
    (Execute cb now fnOk).fnCalls =
      if cb.state = State.StateOpen ∧ now ≤ cb.openTimeout then 0 else 1 := by
  obtain ⟨st, cf, tf, tsc, mf, tmo, ot, pt, cs, mcs, a, b, c⟩ := cb
  cases st <;> cases fnOk <;>
    simp only [Execute, afterSwitch, trip, reset] <;>
    split_ifs <;> simp_all <;> omega

/-- Witness for `execute_invokes_once_except_fast_fail` at a concrete
Open breaker whose cooldown has elapsed (the operation runs once). -/
theorem execute_invokes_once_except_fast_fail_witness :
    (Execute cbOpen3 9 false).fnCalls =
      if cbOpen3.state = State.StateOpen ∧ (9 : Int) ≤ cbOpen3.openTimeout
      then 0 else 1 :=
  execute_invokes_once_except_fast_fail cbOpen3 9 false

/-- Claim C9: an `Execute` call entered with the breaker HalfOpen whose
probe succeeds while the incremented `consecutiveSuccesses` is still below
`maxConsecutiveSuccesses` leaves the breaker HalfOpen, only increments
`consecutiveSuccesses` and `totalSuccesses` (so `consecutiveFailures`,
`maxFailures`, `timeout`, `pauseTime` and `openTimeout` are unchanged), and
fires no hook. -/
theorem execute_halfOpen_success_below_threshold (cb : CircuitBreaker) (now : Int)
    (hs : cb.state = State.StateHalfOpen)
    (hlt : cb.consecutiveSuccesses + 1 < cb.maxConsecutiveSuccesses) :
    Execute cb now true =
      { cb := { cb with consecutiveSuccesses := cb.consecutiveSuccesses + 1,
                        totalSuccesses := cb.totalSuccesses + 1 },
        result := ExecResult.ok, events := [], fnCalls := 1,
        slept := cb.pauseTime } := by
  obtain ⟨st, cf, tf, tsc, mf, tmo, ot, pt, cs, mcs, a, b, c⟩ := cb
  simp only at hs hlt
  subst hs
  simp only [Execute]
  rw [if_pos trivial, if_neg (by omega)]

/-- Witness for `execute_halfOpen_success_below_threshold` at a concrete
HalfOpen breaker whose success count stays below the threshold. -/
theorem execute_halfOpen_success_below_threshold_witness :
    Execute cbHalf1 30 true =
      { cb := { cbHalf1 with
            consecutiveSuccesses := cbHalf1.consecutiveSuccesses + 1,
            totalSuccesses := cbHalf1.totalSuccesses + 1 },
        result := ExecResult.ok, events := [], fnCalls := 1,
        slept := cbHalf1.pauseTime } :=
  execute_halfOpen_success_below_threshold cbHalf1 30 (by decide) (by decide)

/-- Claim C10: `openTimeout` is never written by `reset` (a transition back
to Closed keeps the stale value from the most recent trip), is `0` (the
zero `time.Time`) after construction, and within an `Execute` call is
either left unchanged or written by `trip` to the trip time plus `timeout`
(leaving the breaker Open); in particular a call that ends Closed has not
changed it. -/
theorem openTimeout_written_only_by_trip_and_new (cb : CircuitBreaker) (now : Int)
    (fnOk : Bool) (mf tmo pt mcs : Int) :
    (reset cb).1.openTimeout = cb.openTimeout ∧
    (trip now cb).1.openTimeout = now + cb.timeout ∧
    (NewCircuitBreaker mf tmo pt mcs).openTimeout = 0 ∧
    (SetOnOpen cb).openTimeout = cb.openTimeout ∧
    (SetOnClose cb).openTimeout = cb.openTimeout ∧
    (SetOnHalfOpen cb).openTimeout = cb.openTimeout ∧
    ((Execute cb now fnOk).cb.openTimeout = cb.openTimeout ∨
      ((Execute cb now fnOk).cb.state = State.StateOpen ∧
       (Execute cb now fnOk).cb.openTimeout = now + cb.timeout)) ∧
    ((Execute cb now fnOk).cb.state = State.StateClosed →
      (Execute cb now fnOk).cb.openTimeout = cb.openTimeout) := by
  refine ⟨rfl, rfl, rfl, rfl, rfl, rfl, ?_, ?_⟩ <;>
  · obtain ⟨st, cf, tf, tsc, mf', tmo', ot, pt', cs, mcs', a, b, c⟩ := cb
    cases st <;> cases fnOk <;>
      simp only [Execute, afterSwitch, trip, reset] <;>
      split_ifs <;> simp_all

/-- Witness for `openTimeout_written_only_by_trip_and_new` at a concrete
HalfOpen breaker that re-trips (the second disjunct holds). -/
theorem openTimeout_written_only_by_trip_and_new_witness :
    (reset cbHalfStale).1.openTimeout = cbHalfStale.openTimeout ∧
    (trip 20 cbHalfStale).1.openTimeout = 20 + cbHalfStale.timeout ∧
    (NewCircuitBreaker 3 6 2 2).openTimeout = 0 ∧
    (SetOnOpen cbHalfStale).openTimeout = cbHalfStale.openTimeout ∧
    (SetOnClose cbHalfStale).openTimeout = cbHalfStale.openTimeout ∧
    (SetOnHalfOpen cbHalfStale).openTimeout = cbHalfStale.openTimeout ∧
    ((Execute cbHalfStale 20 false).cb.openTimeout = cbHalfStale.openTimeout ∨
      ((Execute cbHalfStale 20 false).cb.state = State.StateOpen ∧
       (Execute cbHalfStale 20 false).cb.openTimeout = 20 + cbHalfStale.timeout)) ∧
    ((Execute cbHalfStale 20 false).cb.state = State.StateClosed →
      (Execute cbHalfStale 20 false).cb.openTimeout = cbHalfStale.openTimeout) :=
  openTimeout_written_only_by_trip_and_new cbHalfStale 20 false 3 6 2 2

/-- Claim C1 counterexample: with `maxFailures = 2`, `timeout = 0`,
`pauseTime = 0`, `maxConsecutiveSuccesses = 1` and the call sequence fail,
fail, fail, the third call transitions Open to HalfOpen and probes, but on
the probe's failure the breaker does not re-trip to Open: a Go `switch`
case does not fall through, so the call runs the Closed-state logic and
leaves the breaker HalfOpen with `consecutiveFailures = 1`. -/
theorem open_elapsed_failed_probe_stays_halfOpen_cex :
    (runExec (NewCircuitBreaker 2 0 0 1) [(1, false), (2, false), (3, false)]).state =
      State.StateHalfOpen ∧
    (runExec (NewCircuitBreaker 2 0 0 1)
        [(1, false), (2, false), (3, false)]).consecutiveFailures = 1 ∧
    State.StateHalfOpen ≠ State.StateOpen := by decide

/-- Claim C2 counterexample: with `maxFailures = 2`, `timeout = 0`,
`maxConsecutiveSuccesses = 2` and the call sequence fail, fail, fail,
success, the third call (Open with elapsed cooldown) increments
`consecutiveFailures` via the Closed-state logic while HalfOpen and the
fourth (a successful probe below the success threshold) increments
`consecutiveSuccesses`, so both consecutive counters are strictly positive
at once. -/
theorem consec_counters_both_positive_cex :
    0 < (runExec (NewCircuitBreaker 2 0 0 2)
        [(1, false), (2, false), (3, false), (4, true)]).consecutiveFailures ∧
    0 < (runExec (NewCircuitBreaker 2 0 0 2)
        [(1, false), (2, false), (3, false), (4, true)]).consecutiveSuccesses := by decide

/-- Claim C3 counterexample: with `maxFailures = 2`, `timeout = 0`,
`maxConsecutiveSuccesses = 1` and four failing calls, the operation is
invoked once per call and fails all four times, yet `totalFailures` ends at
3: the fourth call enters HalfOpen and its failing probe trips without
incrementing `totalFailures`. -/
theorem totalFailures_misses_halfOpen_probe_cex :
    ((runTrace (NewCircuitBreaker 2 0 0 1)
        [(1, false), (2, false), (3, false), (4, false)]).map ExecOut.fnCalls =
      [1, 1, 1, 1]) ∧
    ((runTrace (NewCircuitBreaker 2 0 0 1)
        [(1, false), (2, false), (3, false), (4, false)]).map ExecOut.result =
      [ExecResult.opError, ExecResult.opError, ExecResult.opError, ExecResult.opError]) ∧
    (runExec (NewCircuitBreaker 2 0 0 1)
        [(1, false), (2, false), (3, false), (4, false)]).totalFailures = 3 := by decide

/-- Claim C1 (amended): an `Execute` call that arrives while the breaker is
Open with the current time strictly after `openTimeout` transitions to
HalfOpen (invoking `onHalfOpen` if set) and then, because a Go `switch`
case does not fall through, applies the Closed-state logic within the same
call: the operation is invoked exactly once; on success a full reset to
Closed occurs unconditionally (invoking `onClose` if set) and
`totalSuccesses` is incremented; on failure `consecutiveFailures` and
`totalFailures` are incremented and the breaker trips back to Open iff the
incremented `consecutiveFailures` reaches `maxFailures` (otherwise it
stays HalfOpen); the call does not block for `pauseTime`.  In particular,
with `maxFailures = 2` the scenario fail, fail, fail leaves the breaker
HalfOpen after the third call (see the counterexample theorem). -/
theorem execute_open_elapsed_applies_closed_logic (cb : CircuitBreaker) (now : Int)
    (fnOk : Bool) (hs : cb.state = State.StateOpen) (ht : cb.openTimeout < now) :
    (Execute cb now fnOk).fnCalls = 1 ∧
    (Execute cb now fnOk).slept = 0 ∧
    (Execute cb now fnOk).result = (if fnOk then ExecResult.ok else ExecResult.opError) ∧
    (Execute cb now fnOk).events =
      (if cb.onHalfOpenSet then [Event.evHalfOpen] else []) ++
      (if fnOk then (if cb.onCloseSet then [Event.evClose] else [])
       else if cb.maxFailures ≤ cb.consecutiveFailures + 1 then
         (if cb.onOpenSet then [Event.evOpen] else [])
       else []) ∧
    (Execute cb now fnOk).cb =
      (if fnOk then
        { cb with
            state := State.StateClosed, consecutiveFailures := 0,
            consecutiveSuccesses := 0, totalSuccesses := cb.totalSuccesses + 1 }
       else if cb.maxFailures ≤ cb.consecutiveFailures + 1 then
        { cb with
            state := State.StateOpen, consecutiveFailures := 0,
            consecutiveSuccesses := 0, totalFailures := cb.totalFailures + 1,
            openTimeout := now + cb.timeout }
       else
        { cb with
            state := State.StateHalfOpen,
            consecutiveFailures := cb.consecutiveFailures + 1,
            totalFailures := cb.totalFailures + 1 }) := by
  obtain ⟨st, cf, tf, tsc, mf, tmo, ot, pt, cs, mcs, a, b, c⟩ := cb
  simp only at hs ht
  subst hs
  cases fnOk <;>
    simp only [Execute, afterSwitch, trip, reset] <;>
    rw [if_pos ht] <;>
    split_ifs <;> simp_all

/-- Witness for `execute_open_elapsed_applies_closed_logic` at a concrete
Open breaker with elapsed cooldown and a failing operation (the breaker
ends HalfOpen because `consecutiveFailures + 1 < maxFailures`). -/
theorem execute_open_elapsed_applies_closed_logic_witness :
    (Execute cbOpen3 9 false).fnCalls = 1 ∧
    (Execute cbOpen3 9 false).slept = 0 ∧
    (Execute cbOpen3 9 false).result = (if false then ExecResult.ok else ExecResult.opError) ∧
    (Execute cbOpen3 9 false).events =
      (if cbOpen3.onHalfOpenSet then [Event.evHalfOpen] else []) ++
      (if false then (if cbOpen3.onCloseSet then [Event.evClose] else [])
       else if cbOpen3.maxFailures ≤ cbOpen3.consecutiveFailures + 1 then
         (if cbOpen3.onOpenSet then [Event.evOpen] else [])
       else []) ∧
    (Execute cbOpen3 9 false).cb =
      (if false then
        { cbOpen3 with
            state := State.StateClosed, consecutiveFailures := 0,
            consecutiveSuccesses := 0, totalSuccesses := cbOpen3.totalSuccesses + 1 }
       else if cbOpen3.maxFailures ≤ cbOpen3.consecutiveFailures + 1 then
        { cbOpen3 with
            state := State.StateOpen, consecutiveFailures := 0,
            consecutiveSuccesses := 0, totalFailures := cbOpen3.totalFailures + 1,
            openTimeout := 9 + cbOpen3.timeout }
       else
        { cbOpen3 with
            state := State.StateHalfOpen,
            consecutiveFailures := cbOpen3.consecutiveFailures + 1,
            totalFailures := cbOpen3.totalFailures + 1 }) :=
  execute_open_elapsed_applies_closed_logic cbOpen3 9 false (by decide) (by decide)

/-- Helper: one `Execute` call preserves `CounterInv`. -/
theorem counterInv_execute {cb : CircuitBreaker} (now : Int) (fnOk : Bool)
    (h : CounterInv cb) : CounterInv (Execute cb now fnOk).cb := by
  obtain ⟨st, cf, tf, tsc, mf, tmo, ot, pt, cs, mcs, a, b, c⟩ := cb
  obtain ⟨h1, h2, h3⟩ := h
  simp only at h1 h2 h3
  cases st <;> cases fnOk <;>
    simp only [Execute, afterSwitch, trip, reset, CounterInv] <;>
    split_ifs <;>
    dsimp only <;>
    refine ⟨by omega, by omega, ?_⟩ <;>
    intro hh <;>
    first | rfl | exact h3 hh | (exact absurd (h3 hh) (by simp)) | omega

/-- Helper: every run of `Execute` calls preserves `CounterInv`. -/
theorem counterInv_runExec (l : List (Int × Bool)) {cb : CircuitBreaker}
    (h : CounterInv cb) : CounterInv (runExec cb l) := by
  induction l generalizing cb with
  | nil => exact h
  | cons p rest ih => exact ih (counterInv_execute p.1 p.2 h)

/-- Helper: a freshly constructed breaker, with any subset of the three
hooks installed through the setters, satisfies `CounterInv`. -/
theorem counterInv_start (mf tmo pt mcs : Int) (a b c : Bool) :
    CounterInv ((if a then SetOnOpen else id)
      ((if b then SetOnClose else id)
        ((if c then SetOnHalfOpen else id) (NewCircuitBreaker mf tmo pt mcs)))) := by
  cases a <;> cases b <;> cases c <;>
    simp [CounterInv, SetOnOpen, SetOnClose, SetOnHalfOpen, NewCircuitBreaker]

/-- Claim C2 (amended): on every breaker built by `NewCircuitBreaker` (with
any subset of hooks installed) and after every sequence of `Execute` calls,
`consecutiveFailures` and `consecutiveSuccesses` are never both strictly
positive while the breaker is Closed or Open; both can be positive while it
is HalfOpen (see the counterexample theorem), because the Open-to-HalfOpen
transition runs the Closed-state logic, which increments
`consecutiveFailures` while the state is HalfOpen. -/
theorem consec_counters_not_both_positive_outside_halfOpen
    (mf tmo pt mcs : Int) (a b c : Bool) (l : List (Int × Bool))
    (h : (runExec ((if a then SetOnOpen else id)
        ((if b then SetOnClose else id)
          ((if c then SetOnHalfOpen else id) (NewCircuitBreaker mf tmo pt mcs)))) l).state ≠
      State.StateHalfOpen) :
    ¬(0 < (runExec ((if a then SetOnOpen else id)
        ((if b then SetOnClose else id)
          ((if c then SetOnHalfOpen else id)
            (NewCircuitBreaker mf tmo pt mcs)))) l).consecutiveFailures ∧
      0 < (runExec ((if a then SetOnOpen else id)
        ((if b then SetOnClose else id)
          ((if c then SetOnHalfOpen else id)
            (NewCircuitBreaker mf tmo pt mcs)))) l).consecutiveSuccesses) := by
  intro hboth
  have hinv := counterInv_runExec l (counterInv_start mf tmo pt mcs a b c)
  exact h (hinv.2.2 hboth.2)

/-- Witness for `consec_counters_not_both_positive_outside_halfOpen` on a
fresh breaker after a single tripping failure (final state Open). -/
theorem consec_counters_not_both_positive_outside_halfOpen_witness :
    ¬(0 < (runExec ((if false then SetOnOpen else id)
        ((if false then SetOnClose else id)
          ((if false then SetOnHalfOpen else id)
            (NewCircuitBreaker 1 0 0 1)))) [(3, false)]).consecutiveFailures ∧
      0 < (runExec ((if false then SetOnOpen else id)
        ((if false then SetOnClose else id)
          ((if false then SetOnHalfOpen else id)
            (NewCircuitBreaker 1 0 0 1)))) [(3, false)]).consecutiveSuccesses) :=
  consec_counters_not_both_positive_outside_halfOpen 1 0 0 1 false false false
    [(3, false)] (by decide)

/-- Helper: per-call change of `totalSuccesses` (incremented exactly when
the operation ran and returned `nil`). -/
theorem execute_totalSuccesses_delta (cb : CircuitBreaker) (now : Int) (fnOk : Bool) :
    (Execute cb now fnOk).cb.totalSuccesses =
      cb.totalSuccesses +
        (if (Execute cb now fnOk).fnCalls = 1 ∧ fnOk = true then 1 else 0) := by
  obtain ⟨st, cf, tf, tsc, mf, tmo, ot, pt, cs, mcs, a, b, c⟩ := cb
  cases st <;> cases fnOk <;>
    simp only [Execute, afterSwitch, trip, reset] <;>
    split_ifs <;> simp_all

/-- Helper: per-call change of `totalFailures` (incremented exactly when
the operation ran, failed, and the call was not entered in the HalfOpen
state: the HalfOpen probe arm never touches `totalFailures`). -/
theorem execute_totalFailures_delta (cb : CircuitBreaker) (now : Int) (fnOk : Bool) :
    (Execute cb now fnOk).cb.totalFailures =
      cb.totalFailures +
        (if (Execute cb now fnOk).fnCalls = 1 ∧ fnOk = false ∧
            cb.state ≠ State.StateHalfOpen then 1 else 0) := by
  obtain ⟨st, cf, tf, tsc, mf, tmo, ot, pt, cs, mcs, a, b, c⟩ := cb
  cases st <;> cases fnOk <;>
    simp only [Execute, afterSwitch, trip, reset] <;>
    split_ifs <;> simp_all

/-- Helper: `totalSuccesses` after a run equals its initial value plus the
number of successful invocations in the run. -/
theorem runExec_totalSuccesses (l : List (Int × Bool)) (cb : CircuitBreaker) :
    (runExec cb l).totalSuccesses = cb.totalSuccesses + countSuccessCalls cb l := by
  induction l generalizing cb with
  | nil => simp [runExec, countSuccessCalls]
  | cons p rest ih =>
      simp only [runExec, countSuccessCalls]
      rw [ih, execute_totalSuccesses_delta]
      omega

/-- Helper: `totalFailures` after a run equals its initial value plus the
number of failing non-probe invocations in the run. -/
theorem runExec_totalFailures (l : List (Int × Bool)) (cb : CircuitBreaker) :
    (runExec cb l).totalFailures = cb.totalFailures + countNonProbeFailureCalls cb l := by
  induction l generalizing cb with
  | nil => simp [runExec, countNonProbeFailureCalls]
  | cons p rest ih =>
      simp only [runExec, countNonProbeFailureCalls]
      rw [ih, execute_totalFailures_delta]
      omega

/-- Helper: the successful-invocation count is non-negative. -/
theorem countSuccessCalls_nonneg (l : List (Int × Bool)) (cb : CircuitBreaker) :
    0 ≤ countSuccessCalls cb l := by
  induction l generalizing cb with
  | nil => simp [countSuccessCalls]
  | cons p rest ih =>
      simp only [countSuccessCalls]
      have := ih (Execute cb p.1 p.2).cb
      split_ifs <;> omega

/-- Helper: the failing non-probe invocation count is non-negative. -/
theorem countNonProbeFailureCalls_nonneg (l : List (Int × Bool)) (cb : CircuitBreaker) :
    0 ≤ countNonProbeFailureCalls cb l := by
  induction l generalizing cb with
  | nil => simp [countNonProbeFailureCalls]
  | cons p rest ih =>
      simp only [countNonProbeFailureCalls]
      have := ih (Execute cb p.1 p.2).cb
      split_ifs <;> omega

/-- Helper: the two lifetime counters are never read: every observable of
an `Execute` call other than the counters themselves is unchanged when the
counters are overwritten with arbitrary values. -/
theorem execute_ignores_totals (cb : CircuitBreaker) (now : Int) (fnOk : Bool) (a' b' : Int) :
    (Execute { cb with totalFailures := a', totalSuccesses := b' } now fnOk).cb.state =
      (Execute cb now fnOk).cb.state ∧
    (Execute { cb with totalFailures := a', totalSuccesses := b' } now fnOk).cb.consecutiveFailures =
      (Execute cb now fnOk).cb.consecutiveFailures ∧
    (Execute { cb with totalFailures := a', totalSuccesses := b' } now fnOk).cb.consecutiveSuccesses =
      (Execute cb now fnOk).cb.consecutiveSuccesses ∧
    (Execute { cb with totalFailures := a', totalSuccesses := b' } now fnOk).cb.openTimeout =
      (Execute cb now fnOk).cb.openTimeout ∧
    (Execute { cb with totalFailures := a', totalSuccesses := b' } now fnOk).result =
      (Execute cb now fnOk).result ∧
    (Execute { cb with totalFailures := a', totalSuccesses := b' } now fnOk).events =
      (Execute cb now fnOk).events ∧
    (Execute { cb with totalFailures := a', totalSuccesses := b' } now fnOk).fnCalls =
      (Execute cb now fnOk).fnCalls := by
  obtain ⟨st, cf, tf, tsc, mf, tmo, ot, pt, cs, mcs, a, b, c⟩ := cb
  cases st <;> cases fnOk <;>
    simp only [Execute, afterSwitch, trip, reset] <;>
    split_ifs <;> simp_all

/-- Claim C3 (amended): over every run, `totalSuccesses` never decreases
and equals the number of wrapped-operation invocations that returned
`nil`; `totalFailures` never decreases and equals the number of failing
invocations made outside the HalfOpen probe arm (a failing probe of a call
entered in the HalfOpen state does not increment it, so it undercounts the
failing invocations); open-circuit rejections (which invoke the operation
zero times) change neither counter, and neither counter is ever read: no
other observable of a call depends on their values. -/
theorem total_counters_lifetime_counts (cb : CircuitBreaker) (l : List (Int × Bool))
    (now : Int) (fnOk : Bool) (a' b' : Int) :
    (runExec cb l).totalSuccesses = cb.totalSuccesses + countSuccessCalls cb l ∧
    (runExec cb l).totalFailures = cb.totalFailures + countNonProbeFailureCalls cb l ∧
    cb.totalSuccesses ≤ (runExec cb l).totalSuccesses ∧
    cb.totalFailures ≤ (runExec cb l).totalFailures ∧
    (Execute { cb with totalFailures := a', totalSuccesses := b' } now fnOk).cb.state =
      (Execute cb now fnOk).cb.state ∧
    (Execute { cb with totalFailures := a', totalSuccesses := b' } now fnOk).cb.consecutiveFailures =
      (Execute cb now fnOk).cb.consecutiveFailures ∧
    (Execute { cb with totalFailures := a', totalSuccesses := b' } now fnOk).cb.consecutiveSuccesses =
      (Execute cb now fnOk).cb.consecutiveSuccesses ∧
    (Execute { cb with totalFailures := a', totalSuccesses := b' } now fnOk).cb.openTimeout =
      (Execute cb now fnOk).cb.openTimeout ∧
    (Execute { cb with totalFailures := a', totalSuccesses := b' } now fnOk).result =
      (Execute cb now fnOk).result ∧
    (Execute { cb with totalFailures := a', totalSuccesses := b' } now fnOk).events =
      (Execute cb now fnOk).events ∧
    (Execute { cb with totalFailures := a', totalSuccesses := b' } now fnOk).fnCalls =
      (Execute cb now fnOk).fnCalls := by
  obtain ⟨hx1, hx2, hx3, hx4, hx5, hx6, hx7⟩ := execute_ignores_totals cb now fnOk a' b'
  refine ⟨runExec_totalSuccesses l cb, runExec_totalFailures l cb, ?_, ?_,
    hx1, hx2, hx3, hx4, hx5, hx6, hx7⟩
  · have := countSuccessCalls_nonneg l cb
    rw [runExec_totalSuccesses l cb]; omega
  · have := countNonProbeFailureCalls_nonneg l cb
    rw [runExec_totalFailures l cb]; omega

/-- Witness for `total_counters_lifetime_counts` on a fresh breaker, a
two-call run (one failure, one success) and arbitrary overwritten
counters. -/
theorem total_counters_lifetime_counts_witness :
    (runExec (NewCircuitBreaker 2 0 0 1) [(1, false), (2, true)]).totalSuccesses =
      (NewCircuitBreaker 2 0 0 1).totalSuccesses +
        countSuccessCalls (NewCircuitBreaker 2 0 0 1) [(1, false), (2, true)] ∧
    (runExec (NewCircuitBreaker 2 0 0 1) [(1, false), (2, true)]).totalFailures =
      (NewCircuitBreaker 2 0 0 1).totalFailures +
        countNonProbeFailureCalls (NewCircuitBreaker 2 0 0 1) [(1, false), (2, true)] ∧
    (NewCircuitBreaker 2 0 0 1).totalSuccesses ≤
      (runExec (NewCircuitBreaker 2 0 0 1) [(1, false), (2, true)]).totalSuccesses ∧
    (NewCircuitBreaker 2 0 0 1).totalFailures ≤
      (runExec (NewCircuitBreaker 2 0 0 1) [(1, false), (2, true)]).totalFailures ∧
    (Execute { NewCircuitBreaker 2 0 0 1 with
        totalFailures := 9, totalSuccesses := 4 } 5 true).cb.state =
      (Execute (NewCircuitBreaker 2 0 0 1) 5 true).cb.state ∧
    (Execute { NewCircuitBreaker 2 0 0 1 with
        totalFailures := 9, totalSuccesses := 4 } 5 true).cb.consecutiveFailures =
      (Execute (NewCircuitBreaker 2 0 0 1) 5 true).cb.consecutiveFailures ∧
    (Execute { NewCircuitBreaker 2 0 0 1 with
        totalFailures := 9, totalSuccesses := 4 } 5 true).cb.consecutiveSuccesses =
      (Execute (NewCircuitBreaker 2 0 0 1) 5 true).cb.consecutiveSuccesses ∧
    (Execute { NewCircuitBreaker 2 0 0 1 with
        totalFailures := 9, totalSuccesses := 4 } 5 true).cb.openTimeout =
      (Execute (NewCircuitBreaker 2 0 0 1) 5 true).cb.openTimeout ∧
    (Execute { NewCircuitBreaker 2 0 0 1 with
        totalFailures := 9, totalSuccesses := 4 } 5 true).result =
      (Execute (NewCircuitBreaker 2 0 0 1) 5 true).result ∧
    (Execute { NewCircuitBreaker 2 0 0 1 with
        totalFailures := 9, totalSuccesses := 4 } 5 true).events =
      (Execute (NewCircuitBreaker 2 0 0 1) 5 true).events ∧
    (Execute { NewCircuitBreaker 2 0 0 1 with
        totalFailures := 9, totalSuccesses := 4 } 5 true).fnCalls =
      (Execute (NewCircuitBreaker 2 0 0 1) 5 true).fnCalls :=
  total_counters_lifetime_counts (NewCircuitBreaker 2 0 0 1) [(1, false), (2, true)] 5 true 9 4

/-- Helper: running an appended list of calls is running the two parts in
sequence. -/
theorem runExec_append (l1 l2 : List (Int × Bool)) (cb : CircuitBreaker) :
    runExec cb (l1 ++ l2) = runExec (runExec cb l1) l2 := by
  induction l1 generalizing cb with
  | nil => rfl
  | cons p rest ih => exact ih ((Execute cb p.1 p.2).cb)

/-- Helper: hook invocations of an appended run split accordingly. -/
theorem runEvents_append (l1 l2 : List (Int × Bool)) (cb : CircuitBreaker) :
    runEvents cb (l1 ++ l2) = runEvents cb l1 ++ runEvents (runExec cb l1) l2 := by
  induction l1 generalizing cb with
  | nil => rfl
  | cons p rest ih =>
      show (Execute cb p.1 p.2).events ++ runEvents (Execute cb p.1 p.2).cb (rest ++ l2) =
        ((Execute cb p.1 p.2).events ++ runEvents (Execute cb p.1 p.2).cb rest) ++
          runEvents (runExec (Execute cb p.1 p.2).cb rest) l2
      rw [ih, List.append_assoc]

/-- Helper: per-call outcomes of an appended run split accordingly. -/
theorem runTrace_append (l1 l2 : List (Int × Bool)) (cb : CircuitBreaker) :
    runTrace cb (l1 ++ l2) = runTrace cb l1 ++ runTrace (runExec cb l1) l2 := by
  induction l1 generalizing cb with
  | nil => rfl
  | cons p rest ih =>
      show Execute cb p.1 p.2 :: runTrace (Execute cb p.1 p.2).cb (rest ++ l2) =
        (Execute cb p.1 p.2 :: runTrace (Execute cb p.1 p.2).cb rest) ++
          runTrace (runExec (Execute cb p.1 p.2).cb rest) l2
      rw [ih]
      rfl

/-- Helper: post-call states of an appended run split accordingly. -/
theorem traceStates_append (l1 l2 : List (Int × Bool)) (cb : CircuitBreaker) :
    traceStates cb (l1 ++ l2) = traceStates cb l1 ++ traceStates (runExec cb l1) l2 := by
  simp only [traceStates, runTrace_append, List.map_append]

/-- Helper: `failCalls` distributes over list append. -/
theorem failCalls_append (l1 l2 : List Int) :
    failCalls (l1 ++ l2) = failCalls l1 ++ failCalls l2 := by
  simp [failCalls]

/-- Helper: a run of failing calls from the Closed state that stays below
the failure threshold only accumulates the two failure counters, fires no
hook, and remains Closed after every call. -/
theorem runExec_failCalls_no_trip (ts : List Int) (cb : CircuitBreaker)
    (hs : cb.state = State.StateClosed)
    (hlt : cb.consecutiveFailures + (ts.length : Int) < cb.maxFailures) :
    runExec cb (failCalls ts) =
      { cb with
          consecutiveFailures := cb.consecutiveFailures + (ts.length : Int),
          totalFailures := cb.totalFailures + (ts.length : Int) } ∧
    runEvents cb (failCalls ts) = [] ∧
    traceStates cb (failCalls ts) = List.replicate ts.length State.StateClosed := by
  induction ts generalizing cb with
  | nil =>
      refine ⟨?_, rfl, rfl⟩
      simp [runExec, failCalls]
  | cons t rest ih =>
      simp only [List.length_cons] at hlt
      push_cast at hlt
      have hlt1 : cb.consecutiveFailures + 1 < cb.maxFailures := by omega
      have hstep := execute_closed_failure_below_threshold cb t hs hlt1
      have hlt2 : ({ cb with
          consecutiveFailures := cb.consecutiveFailures + 1,
          totalFailures := cb.totalFailures + 1 } : CircuitBreaker).consecutiveFailures +
            ((rest.length : Nat) : Int) <
          ({ cb with
             consecutiveFailures := cb.consecutiveFailures + 1,
             totalFailures := cb.totalFailures + 1 } : CircuitBreaker).maxFailures := by
        show cb.consecutiveFailures + 1 + (rest.length : Int) < cb.maxFailures
        omega
      obtain ⟨ih1, ih2, ih3⟩ := ih { cb with
          consecutiveFailures := cb.consecutiveFailures + 1,
          totalFailures := cb.totalFailures + 1 } hs hlt2
      refine ⟨?_, ?_, ?_⟩
      · show (runExec (Execute cb t false).cb (failCalls rest)) = _
        rw [hstep]
        dsimp only
        rw [ih1]
        dsimp only
        simp only [List.length_cons, CircuitBreaker.mk.injEq, true_and, and_true]
        push_cast
        omega
      · show (Execute cb t false).events ++ runEvents (Execute cb t false).cb (failCalls rest) = []
        rw [hstep]
        dsimp only
        rw [ih2]
        rfl
      · show (Execute cb t false).cb.state :: traceStates (Execute cb t false).cb (failCalls rest) =
          List.replicate (rest.length + 1) State.StateClosed
        rw [hstep]
        dsimp only
        rw [ih3, hs, List.replicate_succ]

/-- Claim C5: starting Closed with `consecutiveFailures = 0`, the `onOpen`
hook installed, and `maxFailures` equal to the (positive) number of calls,
a run of consecutive failing calls stays Closed after each of the first
`maxFailures - 1` calls and is Open exactly after the last one; `onOpen`
fires exactly once in the whole run (no other hook fires), and at the trip
instant both consecutive counters are zero and `openTimeout` is the last
call's time plus `timeout`. -/
theorem closed_maxFailures_failures_trip_on_last (cb : CircuitBreaker) (ts : List Int)
    (hs : cb.state = State.StateClosed)
    (hcf : cb.consecutiveFailures = 0)
    (hoo : cb.onOpenSet = true)
    (hmf : cb.maxFailures = (ts.length : Int))
    (hne : ts ≠ []) :
    traceStates cb (failCalls ts) =
      List.replicate (ts.length - 1) State.StateClosed ++ [State.StateOpen] ∧
    (runExec cb (failCalls ts)).state = State.StateOpen ∧
    (runExec cb (failCalls ts)).consecutiveFailures = 0 ∧
    (runExec cb (failCalls ts)).consecutiveSuccesses = 0 ∧
    (runExec cb (failCalls ts)).openTimeout = ts.getLastD 0 + cb.timeout ∧
    runEvents cb (failCalls ts) = [Event.evOpen] := by
  obtain ⟨init, x, rfl⟩ : ∃ init x, ts = init ++ [x] := by
    rcases ts.eq_nil_or_concat' with h | ⟨init, x, h⟩
    · exact absurd h hne
    · exact ⟨init, x, h⟩
  have hlen : (((init ++ [x]).length : Nat) : Int) = (init.length : Int) + 1 := by
    simp
  have hltInit : cb.consecutiveFailures + (init.length : Int) < cb.maxFailures := by
    rw [hcf, hmf, hlen]; omega
  obtain ⟨h1, h2, h3⟩ := runExec_failCalls_no_trip init cb hs hltInit
  set cb1 := runExec cb (failCalls init) with hcb1
  have hs1 : cb1.state = State.StateClosed := by rw [h1]; exact hs
  have hge1 : cb1.maxFailures ≤ cb1.consecutiveFailures + 1 := by
    rw [h1]
    show cb.maxFailures ≤ cb.consecutiveFailures + (init.length : Int) + 1
    rw [hcf, hmf, hlen]; omega
  have hstep := execute_closed_failure_at_threshold cb1 x hs1 hge1
  have hsplit : failCalls (init ++ [x]) = failCalls init ++ [(x, false)] := by
    rw [failCalls_append]; rfl
  have hrun : runExec cb (failCalls (init ++ [x])) = (Execute cb1 x false).cb := by
    rw [hsplit, runExec_append]
    rfl
  refine ⟨?_, ?_, ?_, ?_, ?_, ?_⟩
  · rw [hsplit, traceStates_append, h3]
    show List.replicate init.length State.StateClosed ++ [(Execute cb1 x false).cb.state] = _
    rw [hstep]
    simp
  · rw [hrun, hstep]
  · rw [hrun, hstep]
  · rw [hrun, hstep]
  · rw [hrun, hstep]
    show x + cb1.timeout = (init ++ [x]).getLastD 0 + cb.timeout
    rw [List.getLastD_concat, h1]
  · rw [hsplit, runEvents_append, h2]
    show [] ++ ((Execute cb1 x false).events ++ []) = [Event.evOpen]
    rw [hstep]
    have hoo1 : cb1.onOpenSet = true := by rw [h1]; exact hoo
    simp [hoo1]

/-- Witness for `closed_maxFailures_failures_trip_on_last`: a fresh breaker
with `maxFailures = 2`, the `onOpen` hook installed, and two failing calls
at times 1 and 2. -/
theorem closed_maxFailures_failures_trip_on_last_witness :
    traceStates (SetOnOpen (NewCircuitBreaker 2 0 0 1)) (failCalls [1, 2]) =
      List.replicate (([1, 2] : List Int).length - 1) State.StateClosed ++
        [State.StateOpen] ∧
    (runExec (SetOnOpen (NewCircuitBreaker 2 0 0 1)) (failCalls [1, 2])).state =
      State.StateOpen ∧
    (runExec (SetOnOpen (NewCircuitBreaker 2 0 0 1)) (failCalls [1, 2])).consecutiveFailures = 0 ∧
    (runExec (SetOnOpen (NewCircuitBreaker 2 0 0 1)) (failCalls [1, 2])).consecutiveSuccesses = 0 ∧
    (runExec (SetOnOpen (NewCircuitBreaker 2 0 0 1)) (failCalls [1, 2])).openTimeout =
      ([1, 2] : List Int).getLastD 0 + (SetOnOpen (NewCircuitBreaker 2 0 0 1)).timeout ∧
    runEvents (SetOnOpen (NewCircuitBreaker 2 0 0 1)) (failCalls [1, 2]) = [Event.evOpen] :=
  closed_maxFailures_failures_trip_on_last (SetOnOpen (NewCircuitBreaker 2 0 0 1)) [1, 2]
    (by decide) (by decide) (by decide) (by decide) (by decide)

end GoSafeCircuit
